import Mathlib

/-!
# Verification of the preference-saving engine (`src/save.rs`)

A shallow embedding of the attribute-driven preference serializer: the TOML
value model, the reflected-value algebra consumed from the host's reflection
system, the recursive encoder (`store_prop`, `save_struct`,
`save_tuple_struct`, `save_enum` and their `maybe_*` classifiers), the
top-level resource walk of `SavePreferences::apply`, and the commit protocol
(directory creation, temp-file write, rename).

Rust panics (`todo!()`, `unwrap()` failures, `panic!`) are modelled as
`Except.error` carrying the panic message; logged warnings (`warn!`) are
collected in a `List String` of diagnostics alongside the result.
-/

namespace BevyBasicPrefs

/-- Payload of a TOML float.  A Rust `f32` is widened to `f64` by `as f64`,
an exact injection, so we keep the original bit pattern together with a tag
recording the source width; no claim depends on float arithmetic. -/
inductive FloatVal where
  | of32 (bits : Nat)
  | of64 (bits : Nat)
deriving DecidableEq, Repr

/-- TOML values: tagged union of string, 64-bit signed integer, float and
nested table (`toml::Value`).  A table is an ordered mapping with unique
keys, modelled as an association list in insertion order. -/
inductive Value where
  | str (s : String)
  | int (i : Int)
  | float (f : FloatVal)
  | table (t : List (String × Value))

/-- `toml::Table`: ordered mapping from string keys to values. -/
abbrev Table := List (String × Value)

/-- Lookup in a table (`toml::Table::get`). -/
def Table.get : Table → String → Option Value
  | [], _ => none
  | (k, v) :: rest, key => if k = key then some v else Table.get rest key

/-- `toml::Table::insert`: replace the value at an existing key in place,
otherwise append the new binding at the end (insertion order preserved). -/
def Table.insert : Table → String → Value → Table
  | [], key, v => [(key, v)]
  | (k, w) :: rest, key, v =>
      if k = key then (key, v) :: rest else (k, w) :: Table.insert rest key v

/-- `bevy::reflect::VariantType`: the kind of the current enum variant. -/
inductive VariantType where
  | unit
  | tuple
  | structVariant
deriving DecidableEq, Repr

/-- The primitive/opaque reflected values probed by `store_prop`'s chain of
`try_downcast_ref` calls.  Signed payloads are carried as `Int`, unsigned as
`Nat`; `otherv` stands for any opaque type none of the downcasts match. -/
inductive OpaqueVal where
  | f32v (bits : Nat)
  | f64v (bits : Nat)
  | i8v (v : Int)
  | i16v (v : Int)
  | i32v (v : Int)
  | i64v (v : Int)
  | u8v (v : Nat)
  | u16v (v : Nat)
  | u32v (v : Nat)
  | u64v (v : Nat)
  | usizev (v : Nat)
  | strv (s : String)
  | otherv (typeName : String)
deriving DecidableEq, Repr

/-- A reflected value, the closed visitor over `bevy::reflect::ReflectRef`.
An enum value also carries its represented type's path and the `Group`/`Key`
custom attributes of that type (read via `get_represented_type_info`), its
current variant's kind and name, and the variant's field values. -/
inductive RValue where
  | rStruct (fields : List (String × RValue))
  | rTupleStruct (fields : List RValue)
  | rTuple (fields : List RValue)
  | rList (elems : List RValue)
  | rArray (elems : List RValue)
  | rMap (entries : List (RValue × RValue))
  | rSet (elems : List RValue)
  | rEnum (typePath : String) (groupAttr keyAttr : Option String)
          (variantKind : VariantType) (variantName : String)
          (fields : List RValue)
  | rOpaque (v : OpaqueVal)

/-- Result of an encoding step: either a panic message, or the updated table
together with the warnings logged along the way. -/
abbrev EncResult := Except String (Table × List String)

/-- Rust's `str::starts_with`, modelled on the character list of the
string so that it evaluates by `decide` on concrete inputs. -/
def strStartsWith (s p : String) : Bool := p.data.isPrefixOf s.data

/-- The `ReflectRef::Opaque` arm of `store_prop`: the `try_downcast_ref`
chain.  Unsigned 64-bit and word-sized values are inserted only when they
fit in `i64` (at most `2^63 - 1`); otherwise the key is not inserted and a
diagnostic naming the value is logged.  Unmatched opaque types log an
unsupported-type diagnostic.  This arm never panics. -/
def storeOpaque (ov : OpaqueVal) (key : String) (t : Table) :
    Table × List String :=
  match ov with
  | .f32v b => (Table.insert t key (.float (.of32 b)), [])
  | .f64v b => (Table.insert t key (.float (.of64 b)), [])
  | .i8v v => (Table.insert t key (.int v), [])
  | .i16v v => (Table.insert t key (.int v), [])
  | .i32v v => (Table.insert t key (.int v), [])
  | .i64v v => (Table.insert t key (.int v), [])
  | .u8v v => (Table.insert t key (.int (Int.ofNat v)), [])
  | .u16v v => (Table.insert t key (.int (Int.ofNat v)), [])
  | .u32v v => (Table.insert t key (.int (Int.ofNat v)), [])
  | .u64v v =>
      if v ≤ 9223372036854775807 then
        (Table.insert t key (.int (Int.ofNat v)), [])
      else
        (t, ["Preferences: u64 value too large: " ++ toString v])
  | .usizev v =>
      if v ≤ 9223372036854775807 then
        (Table.insert t key (.int (Int.ofNat v)), [])
      else
        (t, ["Preferences: usize value too large: " ++ toString v])
  | .strv s => (Table.insert t key (.str s), [])
  | .otherv tn =>
      (t, ["Preferences: Unsupported type: " ++ tn])

mutual

/-- `store_prop`: encode one reflected property under `key` into `table`.
Struct values recurse into a fresh nested table; tuple structs, tuples,
lists, arrays, maps and sets hit `todo!()` (a panic); enums are handled
only when their type path starts with `core::option::Option` (`None` leaves
the key out, `Some` encodes the wrapped value under the same key), with a
logged diagnostic otherwise; opaque values go through the downcast chain. -/
def store_prop (v : RValue) (key : String) (t : Table) : EncResult :=
  match v with
  | .rStruct fields =>
      match save_struct fields [] with
      | .error e => .error e
      | .ok (ft, ds) => .ok (Table.insert t key (.table ft), ds)
  | .rTupleStruct _ => .error "not yet implemented"
  | .rTuple _ => .error "not yet implemented"
  | .rList _ => .error "not yet implemented"
  | .rArray _ => .error "not yet implemented"
  | .rMap _ => .error "not yet implemented"
  | .rSet _ => .error "not yet implemented"
  | .rEnum typePath _ _ _ variantName fields =>
      if strStartsWith typePath "core::option::Option" then
        if variantName = "Some" then
          match fields with
          | [] => .error "called Option::unwrap on a None value"
          | f0 :: _ => store_prop f0 key t
        else .ok (t, [])
      else
        .ok (t, ["Preferences: Unsupported enum type: \"" ++ typePath ++ "\""])
  | .rOpaque ov => .ok (storeOpaque ov key t)

/-- `save_struct`: iterate the named fields of a struct, dispatching on each
field's reflected shape.  Struct-, tuple-struct-, tuple-, list-, array-,
map- and set-shaped fields hit `todo!()` (a panic); enum and opaque fields
are stored through `store_prop` under the field's name. -/
def save_struct (fields : List (String × RValue)) (t : Table) : EncResult :=
  match fields with
  | [] => .ok (t, [])
  | (name, fv) :: rest =>
      match fv with
      | .rStruct _ => .error "not yet implemented"
      | .rTupleStruct _ => .error "not yet implemented"
      | .rTuple _ => .error "not yet implemented"
      | .rList _ => .error "not yet implemented"
      | .rArray _ => .error "not yet implemented"
      | .rMap _ => .error "not yet implemented"
      | .rSet _ => .error "not yet implemented"
      | _ =>
          match store_prop fv name t with
          | .error e => .error e
          | .ok (t1, ds) =>
              match save_struct rest t1 with
              | .error e => .error e
              | .ok (t2, ds2) => .ok (t2, ds ++ ds2)

end

/-- The `table.entry(g).or_insert(Table::new()).as_table_mut().unwrap()`
idiom: fetch the sub-table at `g`, an empty one if the key is absent, and
panic when the existing value at `g` is not a table. -/
def getGroupTable (t : Table) (g : String) : Except String Table :=
  match Table.get t g with
  | none => .ok []
  | some (.table gt) => .ok gt
  | some _ => .error "called as_table_mut on a non-table value"

/-- `save_enum`: a non-unit current variant hits `todo!()` (a panic);
otherwise the variant's name is inserted as a string under `key`. -/
def save_enum (variantKind : VariantType) (variantName : String)
    (key : String) (t : Table) : EncResult :=
  if variantKind ≠ VariantType.unit then
    .error "not yet implemented: Figure out how to encode non-unit enums in TOML"
  else
    .ok (Table.insert t key (.str variantName), [])

/-- `maybe_save_enum`: route a reflected enum by the `Group`/`Key`
attributes of its type.  `Group` with `Key` writes into the group
sub-table; `Group` alone hits `todo!()`; `Key` alone writes at the root;
neither does nothing. -/
def maybe_save_enum (groupAttr keyAttr : Option String)
    (variantKind : VariantType) (variantName : String) (t : Table) :
    EncResult :=
  match groupAttr with
  | some g =>
      match getGroupTable t g with
      | .error e => .error e
      | .ok gt =>
          match keyAttr with
          | some key =>
              match save_enum variantKind variantName key gt with
              | .error e => .error e
              | .ok (gt2, ds) => .ok (Table.insert t g (.table gt2), ds)
          | none => .error "not yet implemented"
  | none =>
      match keyAttr with
      | some key => save_enum variantKind variantName key t
      | none => .ok (t, [])

/-- `maybe_save_struct`: a struct with `Group` and no `Key` has its fields
flattened into the group sub-table; `Group` with `Key`, and `Key` alone,
hit `todo!()`; neither attribute does nothing. -/
def maybe_save_struct (groupAttr keyAttr : Option String)
    (fields : List (String × RValue)) (t : Table) : EncResult :=
  match groupAttr with
  | some g =>
      match getGroupTable t g with
      | .error e => .error e
      | .ok gt =>
          match keyAttr with
          | some _ => .error "not yet implemented"
          | none =>
              match save_struct fields gt with
              | .error e => .error e
              | .ok (gt2, ds) => .ok (Table.insert t g (.table gt2), ds)
  | none =>
      match keyAttr with
      | some _ => .error "not yet implemented"
      | none => .ok (t, [])

/-- `save_tuple_struct`: only single-field tuple structs are handled; the
lone field is dispatched by shape exactly like a struct field (composite
shapes hit `todo!()`, enum and opaque go through `store_prop` under `key`).
Any other field count silently does nothing — no entry, no diagnostic. -/
def save_tuple_struct (fields : List RValue) (key : String) (t : Table) :
    EncResult :=
  match fields with
  | [f0] =>
      match f0 with
      | .rStruct _ => .error "not yet implemented"
      | .rTupleStruct _ => .error "not yet implemented"
      | .rTuple _ => .error "not yet implemented"
      | .rList _ => .error "not yet implemented"
      | .rArray _ => .error "not yet implemented"
      | .rMap _ => .error "not yet implemented"
      | .rSet _ => .error "not yet implemented"
      | _ => store_prop f0 key t
  | _ => .ok (t, [])

/-- `maybe_save_tuple_struct`: `Group` with `Key` writes the wrapped value
under `Key` inside the group sub-table; `Group` alone hits `todo!()`;
`Key` alone writes at the root; neither does nothing. -/
def maybe_save_tuple_struct (groupAttr keyAttr : Option String)
    (fields : List RValue) (t : Table) : EncResult :=
  match groupAttr with
  | some g =>
      match getGroupTable t g with
      | .error e => .error e
      | .ok gt =>
          match keyAttr with
          | some key =>
              match save_tuple_struct fields key gt with
              | .error e => .error e
              | .ok (gt2, ds) => .ok (Table.insert t g (.table gt2), ds)
          | none => .error "not yet implemented"
  | none =>
      match keyAttr with
      | some key => save_tuple_struct fields key t
      | none => .ok (t, [])

/-- Registered type information for a resource, as seen through the
`AppTypeRegistry`: the shape of `TypeInfo` together with the `Group` and
`Key` custom attributes, and — for tuple structs — the type path used to
recognise the `bevy_state::state::resources::State<` wrapper. -/
inductive ResTypeInfo where
  | structInfo (groupAttr keyAttr : Option String)
  | tupleStructInfo (groupAttr keyAttr : Option String) (typePath : String)
  | enumInfo (groupAttr keyAttr : Option String)
  | otherInfo

/-- One entry of `world.iter_resources()`: either a resource with no
type id or no registry entry (skipped), or a registered resource with its
name, registered type info and reflected value. -/
inductive WorldRes where
  | unregistered (name : String)
  | registered (name : String) (info : ResTypeInfo) (value : RValue)

/-- The body of the `for (res, _) in world.iter_resources()` loop in
`SavePreferences::apply`: classify one resource by its registered type
info and encode it into the document table.  Struct resources with a
`Group` or `Key` attribute go through `maybe_save_struct`; tuple-struct
resources with an attribute go through `maybe_save_tuple_struct`, and
attribute-less ones whose type path starts with
`bevy_state::state::resources::State<` unwrap their first field and, when
it is an enum, route it through `maybe_save_enum` using the wrapped enum
type's own attributes (struct- or tuple-struct-shaped wrapped state hits
`todo!()`); enum resources carrying a `Group` or `Key` attribute only log
an "Enums not supported yet" diagnostic; everything else is skipped. -/
def processResource (r : WorldRes) (t : Table) : EncResult :=
  match r with
  | .unregistered _ => .ok (t, [])
  | .registered name info value =>
      match info with
      | .structInfo g k =>
          if g.isSome || k.isSome then
            match value with
            | .rStruct fields => maybe_save_struct g k fields t
            | _ => .error "Expected Struct"
          else .ok (t, [])
      | .tupleStructInfo g k tp =>
          match value with
          | .rTupleStruct fields =>
              if g.isSome || k.isSome then
                maybe_save_tuple_struct g k fields t
              else if strStartsWith tp "bevy_state::state::resources::State<" then
                match fields with
                | [] => .error "called Option::unwrap on a None value"
                | f0 :: _ =>
                    match f0 with
                    | .rStruct _ => .error "not yet implemented"
                    | .rTupleStruct _ => .error "not yet implemented"
                    | .rEnum _ eg ek vk vn _ => maybe_save_enum eg ek vk vn t
                    | _ => .ok (t, [])
              else .ok (t, [])
          | _ => .error "Expected TupleStruct"
      | .enumInfo g k =>
          if g.isSome then
            .ok (t, ["Preferences: Enums not supported yet: " ++ name])
          else if k.isSome then
            .ok (t, ["Preferences: Enums not supported yet: " ++ name])
          else .ok (t, [])
      | .otherInfo => .ok (t, [])

/-- Fold of `processResource` over all world resources, starting from a
given table, accumulating diagnostics and stopping at the first panic. -/
def buildTable (rs : List WorldRes) (t : Table) : EncResult :=
  match rs with
  | [] => .ok (t, [])
  | r :: rest =>
      match processResource r t with
      | .error e => .error e
      | .ok (t1, ds) =>
          match buildTable rest t1 with
          | .error e => .error e
          | .ok (t2, ds2) => .ok (t2, ds ++ ds2)

/-- `SavePreferences`: the save command's mode. -/
inductive SavePreferences where
  | ifChanged
  | always
deriving DecidableEq

/-- Outcome oracle for the three filesystem calls of the commit sequence:
whether directory creation, the temp-file write and the rename succeed. -/
structure FsModel where
  createDirOk : Bool
  writeOk : Bool
  renameOk : Bool

/-- The world state consumed by `SavePreferences::apply`: the
`PreferencesChanged` dirty flag and the introspectable resources. -/
structure World where
  changed : Bool
  resources : List WorldRes

/-- Observable events of one `apply` invocation, in order: clearing the
dirty flag, the start of document assembly (the resource walk), the three
filesystem calls, and logged diagnostics. -/
inductive Event where
  | clearFlag
  | assembleDoc
  | fsCreateDir
  | fsWrite (content : Table)
  | fsRename
  | diag (msg : String)

/-- Result of one `apply` invocation: the ordered event trace, the value
of the dirty flag afterwards, and the panic message if the walk panicked. -/
structure ApplyOut where
  events : List Event
  changed : Bool
  panicked : Option String

/-- The commit sequence at the end of `SavePreferences::apply`: create the
preferences directory recursively, write the serialized document to
`prefs.toml.new`, rename it over `prefs.toml`.  Each failure logs a
diagnostic and stops before any later step. -/
def commit (fs : FsModel) (tbl : Table) : List Event :=
  if fs.createDirOk = false then
    [.fsCreateDir, .diag "Could not create preferences directory"]
  else if fs.writeOk = false then
    [.fsCreateDir, .fsWrite tbl, .diag "Could not write preferences file"]
  else if fs.renameOk = false then
    [.fsCreateDir, .fsWrite tbl, .fsRename,
     .diag "Could not save preferences file"]
  else
    [.fsCreateDir, .fsWrite tbl, .fsRename]

/-- `SavePreferences::apply`: if the dirty flag is set or the mode is
`Always`, clear the flag first, then walk the resources to assemble the
document, then run the commit sequence; otherwise do nothing at all. -/
def SavePreferences.apply (mode : SavePreferences) (w : World)
    (fs : FsModel) : ApplyOut :=
  if w.changed = true ∨ mode = SavePreferences.always then
    match buildTable w.resources [] with
    | .error e =>
        { events := [.clearFlag, .assembleDoc], changed := false,
          panicked := some e }
    | .ok (tbl, ds) =>
        { events := [.clearFlag, .assembleDoc] ++ ds.map .diag ++ commit fs tbl,
          changed := false, panicked := none }
  else
    { events := [], changed := w.changed, panicked := none }

/-- Whether an opaque scalar is stored by `storeOpaque` without being
dropped: every numeric and string scalar except out-of-range
`u64`/`usize` values and opaque types no downcast matches. -/
def scalarStorable : OpaqueVal → Bool
  | .u64v v => decide (v ≤ 9223372036854775807)
  | .usizev v => decide (v ≤ 9223372036854775807)
  | .otherv _ => false
  | _ => true

/-- The TOML value an opaque scalar converts to.  Only meaningful when
`scalarStorable` holds; the `otherv` branch is unreachable under that
hypothesis and its result is arbitrary. -/
def scalarConv : OpaqueVal → Value
  | .f32v b => .float (.of32 b)
  | .f64v b => .float (.of64 b)
  | .i8v v => .int v
  | .i16v v => .int v
  | .i32v v => .int v
  | .i64v v => .int v
  | .u8v v => .int (Int.ofNat v)
  | .u16v v => .int (Int.ofNat v)
  | .u32v v => .int (Int.ofNat v)
  | .u64v v => .int (Int.ofNat v)
  | .usizev v => .int (Int.ofNat v)
  | .strv s => .str s
  | .otherv _ => .int 0

/-- The values `store_prop` encodes to exactly one table entry with no
diagnostics and no panic: an opaque scalar the downcast chain stores, or
an `Option` chain whose current variant is `Some` ending in such a value
(`Some v` encodes exactly as `v`).  Returns the converted TOML value, and
`none` for every other shape (composites, non-`Option` enums, `None`,
out-of-range `u64`/`usize`, unmatched opaque types). -/
def storeVal? : RValue → Option Value
  | .rOpaque ov => if scalarStorable ov then some (scalarConv ov) else none
  | .rEnum tp _ _ _ vn fields =>
      if strStartsWith tp "core::option::Option" then
        if vn = "Some" then
          match fields with
          | f0 :: _ => storeVal? f0
          | [] => none
        else none
      else none
  | _ => none

/-! ## Helper lemmas -/

/-- Lookup distributes over table concatenation, trying the left part
first. -/
theorem Table.get_append (a b : Table) (m : String) :
    Table.get (a ++ b) m =
      match Table.get a m with
      | some v => some v
      | none => Table.get b m := by
  induction a with
  | nil => simp [Table.get]
  | cons p rest ih =>
      obtain ⟨key, v⟩ := p
      by_cases hk : key = m <;> simp [Table.get, hk, ih]

/-- Inserting a key that is absent appends the binding at the end. -/
theorem Table.insert_of_get_none (t : Table) (k : String) (v : Value)
    (h : Table.get t k = none) :
    Table.insert t k v = t ++ [(k, v)] := by
  induction t with
  | nil => simp [Table.insert]
  | cons p rest ih =>
      obtain ⟨key, w⟩ := p
      by_cases hk : key = k
      · simp [Table.get, hk] at h
      · simp [Table.get, hk] at h
        simp [Table.insert, hk, ih h]

/-- A storable opaque scalar is stored by `store_prop` as its converted
value under the given key, with no diagnostics. -/
theorem store_prop_opaque_storable (ov : OpaqueVal) (k : String) (t : Table)
    (h : scalarStorable ov = true) :
    store_prop (.rOpaque ov) k t = .ok (Table.insert t k (scalarConv ov), []) := by
  cases ov <;>
    simp [scalarStorable] at h ⊢ <;>
    simp [store_prop, storeOpaque, scalarConv, h]

/-- Lookup after inserting at the same key yields the inserted value. -/
theorem Table.get_insert_self (a : Table) (n : String) (w : Value) :
    Table.get (Table.insert a n w) n = some w := by
  induction a with
  | nil => simp [Table.insert, Table.get]
  | cons p rest ih =>
      obtain ⟨k, v⟩ := p
      by_cases hk : k = n <;> simp [Table.insert, Table.get, hk, ih]

/-- Lookup after inserting at a different key is unchanged. -/
theorem Table.get_insert_ne (a : Table) (n m : String) (w : Value)
    (h : m ≠ n) :
    Table.get (Table.insert a n w) m = Table.get a m := by
  induction a with
  | nil => simp [Table.insert, Table.get, Ne.symm h]
  | cons p rest ih =>
      obtain ⟨k, v⟩ := p
      by_cases hk : k = n
      · subst hk
        simp [Table.insert, Table.get, Ne.symm h]
      · simp [Table.insert, Table.get, hk, ih]

/-- Folding field inserts whose names all differ from `m` leaves the
lookup at `m` unchanged. -/
theorem get_foldl_insert_not_mem (fields : List (String × RValue))
    (a : Table) (m : String) (h : m ∉ fields.map Prod.fst) :
    Table.get (List.foldl (fun acc q =>
        Table.insert acc q.1 ((storeVal? q.2).getD (.int 0))) a fields) m =
      Table.get a m := by
  induction fields generalizing a with
  | nil => simp
  | cons q rest ih =>
      simp only [List.map_cons, List.mem_cons] at h
      push_neg at h
      simp only [List.foldl_cons]
      rw [ih _ h.2, Table.get_insert_ne _ _ _ _ h.1]

/-- Folding field inserts with pairwise-distinct names binds each field's
name to its converted value. -/
theorem get_foldl_insert_mem (fields : List (String × RValue)) (a : Table)
    (hn : (fields.map Prod.fst).Nodup) :
    ∀ p ∈ fields, Table.get (List.foldl (fun acc q =>
        Table.insert acc q.1 ((storeVal? q.2).getD (.int 0))) a fields) p.1 =
      some ((storeVal? p.2).getD (.int 0)) := by
  induction fields generalizing a with
  | nil => simp
  | cons q rest ih =>
      intro p hp
      simp only [List.map_cons, List.nodup_cons] at hn
      rcases List.mem_cons.1 hp with rfl | hp2
      · simp only [List.foldl_cons]
        rw [get_foldl_insert_not_mem rest _ p.1 hn.1, Table.get_insert_self]
      · simp only [List.foldl_cons]
        exact ih _ hn.2 p hp2

/-- `store_prop` stores every encodable value (in the sense of
`storeVal?`) as exactly its converted value under the given key, with no
diagnostics. -/
theorem store_prop_storeVal (fv : RValue) :
    ∀ (w : Value) (k : String) (t : Table), storeVal? fv = some w →
      store_prop fv k t = .ok (Table.insert t k w, []) := by
  induction fv using storeVal?.induct with
  | case1 ov hs =>
      intro w k t h
      rw [storeVal?.eq_def] at h
      simp only [hs, if_true, Option.some.injEq] at h
      rw [← h]
      exact store_prop_opaque_storable ov k t hs
  | case2 ov hs =>
      intro w k t h
      rw [storeVal?.eq_def] at h
      simp [hs] at h
  | case3 tp g ka vk hsw f0 tail ih =>
      intro w k t h
      rw [storeVal?.eq_def] at h
      simp only [hsw, if_true, reduceIte] at h
      rw [store_prop.eq_def]
      simp only [hsw, if_true, reduceIte]
      exact ih w k t h
  | case4 tp g ka vk hsw =>
      intro w k t h
      rw [storeVal?.eq_def] at h
      simp [hsw] at h
  | case5 tp g ka vk vn fields hsw hvn =>
      intro w k t h
      rw [storeVal?.eq_def] at h
      simp [hsw, hvn] at h
  | case6 tp g ka vk vn fields hsw =>
      intro w k t h
      rw [storeVal?.eq_def] at h
      simp [hsw] at h
  | case7 v h1 h2 =>
      intro w k t h
      cases v with
      | rOpaque ov => exact (h1 ov rfl).elim
      | rEnum tp g ka vk vn fs => exact (h2 tp g ka vk vn fs rfl).elim
      | rStruct fs =>
          rw [storeVal?.eq_def] at h
          simp at h
      | rTupleStruct fs =>
          rw [storeVal?.eq_def] at h
          simp at h
      | rTuple fs =>
          rw [storeVal?.eq_def] at h
          simp at h
      | rList es =>
          rw [storeVal?.eq_def] at h
          simp at h
      | rArray es =>
          rw [storeVal?.eq_def] at h
          simp at h
      | rMap es =>
          rw [storeVal?.eq_def] at h
          simp at h
      | rSet es =>
          rw [storeVal?.eq_def] at h
          simp at h

/-- `save_struct` over encodable fields folds each converted value into
the accumulator table and logs nothing. -/
theorem save_struct_storable (fields : List (String × RValue)) (acc : Table)
    (hv : ∀ p ∈ fields, (storeVal? p.2).isSome = true) :
    save_struct fields acc =
      .ok (List.foldl (fun a q =>
        Table.insert a q.1 ((storeVal? q.2).getD (.int 0))) acc fields, []) := by
  induction fields generalizing acc with
  | nil => simp [save_struct]
  | cons p rest ih =>
      obtain ⟨n, fv⟩ := p
      have h1 : (storeVal? fv).isSome = true := hv (n, fv) (by simp)
      obtain ⟨w, hw⟩ := Option.isSome_iff_exists.1 h1
      have h2 : ∀ q ∈ rest, (storeVal? q.2).isSome = true :=
        fun q hq => hv q (by simp [hq])
      have hsp := store_prop_storeVal fv w n acc hw
      cases fv with
      | rEnum tp eg ek vk vn efs => simp [save_struct, hsp, ih _ h2, hw]
      | rOpaque ov => simp [save_struct, hsp, ih _ h2, hw]
      | rStruct fs => simp [storeVal?] at hw
      | rTupleStruct fs => simp [storeVal?] at hw
      | rTuple fs => simp [storeVal?] at hw
      | rList es => simp [storeVal?] at hw
      | rArray es => simp [storeVal?] at hw
      | rMap es => simp [storeVal?] at hw
      | rSet es => simp [storeVal?] at hw

/-! ## Claims -/

/-- C2: for every world state in which the dirty flag is false, invoking
save with mode `IfChanged` performs no work: the event trace is empty (no
document assembly, no directory creation, write or rename), and the dirty
flag remains false afterwards. -/
theorem C2_ifchanged_clean_noop (w : World) (fs : FsModel)
    (h : w.changed = false) :
    SavePreferences.apply SavePreferences.ifChanged w fs =
      { events := [], changed := false, panicked := none } := by
  simp [SavePreferences.apply, h]

/-- Witness for C2 at a concrete world with a clean dirty flag. -/
theorem C2_ifchanged_clean_noop_witness :
    SavePreferences.apply SavePreferences.ifChanged
        { changed := false, resources := [] }
        { createDirOk := true, writeOk := true, renameOk := true } =
      { events := [], changed := false, panicked := none } :=
  C2_ifchanged_clean_noop _ _ rfl

/-- C3: the commit sequence performs directory creation, then the write of
`prefs.toml.new`, then the rename onto `prefs.toml`, in that order; a
failing step logs a diagnostic and no later step runs; in particular the
rename — the only step that can touch the pre-existing file — occurs only
when directory creation and the write both succeeded. -/
theorem C3_commit_sequence (fs : FsModel) (tbl : Table) :
    (fs.createDirOk = true → fs.writeOk = true → fs.renameOk = true →
      commit fs tbl = [.fsCreateDir, .fsWrite tbl, .fsRename]) ∧
    (fs.createDirOk = false →
      commit fs tbl =
        [.fsCreateDir, .diag "Could not create preferences directory"]) ∧
    (fs.createDirOk = true → fs.writeOk = false →
      commit fs tbl =
        [.fsCreateDir, .fsWrite tbl,
         .diag "Could not write preferences file"]) ∧
    (fs.createDirOk = true → fs.writeOk = true → fs.renameOk = false →
      commit fs tbl =
        [.fsCreateDir, .fsWrite tbl, .fsRename,
         .diag "Could not save preferences file"]) ∧
    (Event.fsRename ∈ commit fs tbl →
      fs.createDirOk = true ∧ fs.writeOk = true) := by
  obtain ⟨c, wr, rn⟩ := fs
  cases c <;> cases wr <;> cases rn <;> simp [commit]

/-- Witness for C3 with all three filesystem steps succeeding. -/
theorem C3_commit_sequence_witness :
    commit { createDirOk := true, writeOk := true, renameOk := true } [] =
      [.fsCreateDir, .fsWrite [], .fsRename] :=
  (C3_commit_sequence _ []).1 rfl rfl rfl

/-- C4: a `u64` or `usize` scalar at most `2^63 - 1` is inserted as an
integer entry equal to the value; a value at least `2^63` inserts nothing
and logs a diagnostic naming the value. -/
theorem C4_unsigned_range (v : Nat) (k : String) (t : Table) :
    (v ≤ 9223372036854775807 →
      store_prop (.rOpaque (.u64v v)) k t =
        .ok (Table.insert t k (.int (Int.ofNat v)), []) ∧
      store_prop (.rOpaque (.usizev v)) k t =
        .ok (Table.insert t k (.int (Int.ofNat v)), [])) ∧
    (9223372036854775808 ≤ v →
      store_prop (.rOpaque (.u64v v)) k t =
        .ok (t, ["Preferences: u64 value too large: " ++ toString v]) ∧
      store_prop (.rOpaque (.usizev v)) k t =
        .ok (t, ["Preferences: usize value too large: " ++ toString v])) := by
  constructor
  · intro h
    constructor <;> simp [store_prop, storeOpaque, h]
  · intro h
    have h2 : ¬ v ≤ 9223372036854775807 := by omega
    constructor <;> simp [store_prop, storeOpaque, h2]

/-- Witness for C4 at exactly `2^63 - 1` (stored) and `2^63` (omitted with
a diagnostic). -/
theorem C4_unsigned_range_witness :
    store_prop (.rOpaque (.u64v 9223372036854775807)) "k" [] =
      .ok ([("k", Value.int (Int.ofNat 9223372036854775807))], []) ∧
    store_prop (.rOpaque (.u64v 9223372036854775808)) "k" [] =
      .ok ([], ["Preferences: u64 value too large: " ++
        toString (9223372036854775808 : Nat)]) := by
  constructor
  · have h := ((C4_unsigned_range 9223372036854775807 "k" []).1 (by omega)).1
    simpa [Table.insert] using h
  · exact ((C4_unsigned_range 9223372036854775808 "k" []).2 (by omega)).1

/-- C5: `Option` is transparent: encoding `Some v` under `k` is the same
table transformation as encoding `v` directly under `k`; encoding `None`
under `k` returns the table unchanged with no diagnostics, so a key absent
before encoding `None` is still absent afterwards. -/
theorem C5_option_transparent (tp : String) (g ka : Option String)
    (vk : VariantType) (v : RValue) (key : String) (t : Table)
    (h : strStartsWith tp "core::option::Option" = true) :
    store_prop (.rEnum tp g ka vk "Some" [v]) key t = store_prop v key t ∧
    store_prop (.rEnum tp g ka vk "None" []) key t = .ok (t, []) ∧
    (Table.get t key = none →
      ∀ t2 ds, store_prop (.rEnum tp g ka vk "None" []) key t = .ok (t2, ds) →
        Table.get t2 key = none) := by
  refine ⟨?_, ?_, ?_⟩
  · conv_lhs => rw [store_prop]
    simp [h]
  · conv_lhs => rw [store_prop]
    simp [h]
  · intro habs t2 ds heq
    conv_lhs at heq => rw [store_prop]
    simp [h] at heq
    rw [← heq.1]
    exact habs

/-- Witness for C5 at `Option<i32>` holding `Some 42` and `None`. -/
theorem C5_option_transparent_witness :
    store_prop (.rEnum "core::option::Option<i32>" none none
        VariantType.tuple "Some" [.rOpaque (.i32v 42)]) "test_option" [] =
      .ok ([("test_option", Value.int 42)], []) ∧
    store_prop (.rEnum "core::option::Option<i32>" none none
        VariantType.unit "None" []) "test_option" [] = .ok ([], []) := by
  constructor
  · have h := (C5_option_transparent "core::option::Option<i32>" none none
      VariantType.tuple (.rOpaque (.i32v 42)) "test_option" [] (by decide)).1
    rw [h]
    simp [store_prop, storeOpaque, Table.insert]
  · exact (C5_option_transparent "core::option::Option<i32>" none none
      VariantType.unit (.rOpaque (.i32v 42)) "test_option" [] (by decide)).2.1

/-- C6: whenever the save proceeds (dirty flag set, or mode `Always`), the
dirty flag is cleared first: the event trace begins with the flag clear
followed by the start of document assembly, before any filesystem event,
and the flag is false afterwards. -/
theorem C6_clear_flag_first (mode : SavePreferences) (w : World)
    (fs : FsModel) (h : w.changed = true ∨ mode = SavePreferences.always) :
    (SavePreferences.apply mode w fs).events.take 2 =
      [Event.clearFlag, Event.assembleDoc] ∧
    (SavePreferences.apply mode w fs).changed = false := by
  unfold SavePreferences.apply
  rw [if_pos h]
  rcases hb : buildTable w.resources [] with e | p
  · simp
  · obtain ⟨tbl, ds⟩ := p
    simp

/-- Witness for C6 at mode `Always` on a clean, empty world. -/
theorem C6_clear_flag_first_witness :
    (SavePreferences.apply SavePreferences.always
        { changed := false, resources := [] }
        { createDirOk := true, writeOk := true, renameOk := true }).events.take 2 =
      [Event.clearFlag, Event.assembleDoc] ∧
    (SavePreferences.apply SavePreferences.always
        { changed := false, resources := [] }
        { createDirOk := true, writeOk := true, renameOk := true }).changed = false :=
  C6_clear_flag_first SavePreferences.always _ _ (Or.inr rfl)

/-- C10: `save_tuple_struct` on a tuple struct whose field count is not
exactly 1 returns with the destination table completely unchanged and,
unlike other unsupported shapes, logs no diagnostic of any kind. -/
theorem C10_tuple_struct_non_single (fields : List RValue) (key : String)
    (t : Table) (h : fields.length ≠ 1) :
    save_tuple_struct fields key t = .ok (t, []) := by
  cases fields with
  | nil => simp [save_tuple_struct]
  | cons f rest =>
      cases rest with
      | nil => simp at h
      | cons f2 rest2 => simp [save_tuple_struct]

/-- Witness for C10 at a two-field tuple struct. -/
theorem C10_tuple_struct_non_single_witness :
    save_tuple_struct [.rOpaque (.i32v 1), .rOpaque (.i32v 2)] "k" [] =
      .ok ([], []) :=
  C10_tuple_struct_non_single _ "k" [] (by simp)

/-- C1 counterexample: a struct-shaped preference with a `Group` attribute
whose field is a list — an unsupported shape — does not log-and-continue:
the walk hits an unimplemented branch and panics, aborting the save. -/
theorem C1_counterexample :
    maybe_save_struct (some "g") none [("xs", RValue.rList [])] [] =
      .error "not yet implemented" := by
  simp [maybe_save_struct, getGroupTable, Table.get, save_struct]

/-- C1 amended: for the unsupported shapes that reach a diagnostic branch
— an opaque type no downcast matches, a non-`Option` enum in field
position, and an out-of-range `u64` — the walker logs a diagnostic, omits
the entry, and continues with the remaining fields; the composite shapes
(struct, tuple struct, tuple, list, array, map, set in field position) and
non-unit enum variants instead hit unimplemented branches that panic. -/
theorem C1_amended_diag_branches_continue (k tp : String)
    (rest : List (String × RValue)) (t t2 : Table) (ds : List String) :
    (save_struct rest t = .ok (t2, ds) →
      save_struct ((k, RValue.rOpaque (.otherv tp)) :: rest) t =
        .ok (t2, ("Preferences: Unsupported type: " ++ tp) :: ds)) ∧
    (∀ etp eg ek evk evn efs,
      strStartsWith etp "core::option::Option" = false →
      save_struct rest t = .ok (t2, ds) →
      save_struct ((k, RValue.rEnum etp eg ek evk evn efs) :: rest) t =
        .ok (t2,
          ("Preferences: Unsupported enum type: \"" ++ etp ++ "\"") :: ds)) ∧
    (∀ v : Nat, 9223372036854775808 ≤ v →
      save_struct rest t = .ok (t2, ds) →
      save_struct ((k, RValue.rOpaque (.u64v v)) :: rest) t =
        .ok (t2, ("Preferences: u64 value too large: " ++ toString v) :: ds)) := by
  refine ⟨?_, ?_, ?_⟩
  · intro hrest
    simp [save_struct, store_prop, storeOpaque, hrest]
  · intro etp eg ek evk evn efs hne hrest
    have hsp : store_prop (RValue.rEnum etp eg ek evk evn efs) k t =
        .ok (t, ["Preferences: Unsupported enum type: \"" ++ etp ++ "\""]) := by
      rw [store_prop.eq_def]
      simp [hne]
    simp [save_struct, hsp, hrest]
  · intro v hv hrest
    have h2 : ¬ v ≤ 9223372036854775807 := by omega
    simp [save_struct, store_prop, storeOpaque, h2, hrest]

/-- Witness for the amended C1: an unmatched opaque field followed by a
storable string field is skipped with a diagnostic while its sibling is
still encoded. -/
theorem C1_amended_diag_branches_continue_witness :
    save_struct [("bad", RValue.rOpaque (.otherv "core::time::Duration")),
        ("good", RValue.rOpaque (.strv "v"))] [] =
      .ok ([("good", Value.str "v")],
        ["Preferences: Unsupported type: " ++ "core::time::Duration"]) := by
  have h := (C1_amended_diag_branches_continue "bad" "core::time::Duration"
      [("good", RValue.rOpaque (.strv "v"))] [] [("good", Value.str "v")] []).1
  exact h (by simp [save_struct, store_prop, storeOpaque, Table.insert])

/-- C7 counterexample: a struct with `Group = "g"` and a single
unit-enumeration field is saved with an *empty* group sub-table — the
enum field is logged as an unsupported enum type and omitted, not stored
as its variant name — refuting "one entry per field" for enumeration
fields. -/
theorem C7_counterexample :
    maybe_save_struct (some "g") none
        [("mode", RValue.rEnum "my::Mode" none none VariantType.unit "High" [])]
        [] =
      .ok ([("g", Value.table [])],
        ["Preferences: Unsupported enum type: \"" ++ "my::Mode" ++ "\""]) := by
  have hne : strStartsWith "my::Mode" "core::option::Option" = false := by decide
  simp [maybe_save_struct, getGroupTable, Table.get, save_struct, store_prop,
    hne, Table.insert]

/-- C7 amended: a struct-shaped state object with a `Group` attribute and
no `Key` attribute, whose fields all hold an encodable value — an in-range
supported scalar, or a present (`Some`) optional chain ending in one —
with pairwise-distinct names, produces (or merges into) the sub-table
under the group's name: the result is that sub-table updated with one
entry per field, keyed by the field's name, holding the field's converted
value, while pre-existing entries under other keys are preserved;
enumeration-shaped fields are instead logged as unsupported and omitted.
-/
theorem C7_amended_group_struct_merge (g : String)
    (fields : List (String × RValue)) (t gt0 : Table)
    (hg : getGroupTable t g = .ok gt0)
    (hv : ∀ p ∈ fields, (storeVal? p.2).isSome = true)
    (hn : (fields.map Prod.fst).Nodup) :
    maybe_save_struct (some g) none fields t =
      .ok (Table.insert t g (.table (List.foldl (fun a q =>
        Table.insert a q.1 ((storeVal? q.2).getD (.int 0))) gt0 fields)), []) ∧
    (∀ p ∈ fields, Table.get (List.foldl (fun a q =>
        Table.insert a q.1 ((storeVal? q.2).getD (.int 0))) gt0 fields) p.1 =
      storeVal? p.2) ∧
    (∀ m, m ∉ fields.map Prod.fst → Table.get (List.foldl (fun a q =>
        Table.insert a q.1 ((storeVal? q.2).getD (.int 0))) gt0 fields) m =
      Table.get gt0 m) := by
  refine ⟨?_, ?_, ?_⟩
  · simp [maybe_save_struct, hg, save_struct_storable fields gt0 hv]
  · intro p hp
    obtain ⟨w, hw⟩ := Option.isSome_iff_exists.1 (hv p hp)
    rw [get_foldl_insert_mem fields gt0 hn p hp, hw]
    simp
  · intro m hm
    exact get_foldl_insert_not_mem fields gt0 m hm

/-- Witness for the amended C7: the `Video` group already holds an entry
`old = "x"`; a struct with fields `width = 1920` (`u32`) and
`volume = Some 0.8f32` (an optional) merges into it, adding one entry per
field and keeping the pre-existing entry. -/
theorem C7_amended_group_struct_merge_witness :
    maybe_save_struct (some "video") none
        [("width", RValue.rOpaque (.u32v 1920)),
         ("volume", RValue.rEnum "core::option::Option<f32>" none none
           VariantType.tuple "Some" [.rOpaque (.f32v 123)])]
        [("video", Value.table [("old", Value.str "x")])] =
      .ok ([("video", Value.table
        [("old", Value.str "x"), ("width", Value.int 1920),
         ("volume", Value.float (.of32 123))])], []) := by
  have hsw : strStartsWith "core::option::Option<f32>" "core::option::Option" = true := by
    decide
  have h := (C7_amended_group_struct_merge "video"
    [("width", RValue.rOpaque (.u32v 1920)),
     ("volume", RValue.rEnum "core::option::Option<f32>" none none
       VariantType.tuple "Some" [.rOpaque (.f32v 123)])]
    [("video", Value.table [("old", Value.str "x")])]
    [("old", Value.str "x")]
    (by simp [getGroupTable, Table.get])
    (by
      intro p hp
      rcases List.mem_cons.1 hp with rfl | hp2
      · simp [storeVal?, scalarStorable]
      · rcases List.mem_cons.1 hp2 with rfl | hp3
        · simp [storeVal?, hsw, scalarStorable, scalarConv]
        · cases hp3)
    (by decide)).1
  simpa [storeVal?, hsw, scalarStorable, scalarConv, Table.insert,
    Table.get] using h

/-- C8: a single-field wrapper resource whose type path matches the
`bevy_state::state::resources::State<` convention and carries no
attributes of its own, wrapping a unit-variant enum with a `Key`
attribute, stores the current variant name as a string under that key —
inside the group sub-table when the enum also has a `Group` attribute,
else at the document root. -/
theorem C8_state_wrapper (name tp etp vname key : String) (t : Table)
    (hp : strStartsWith tp "bevy_state::state::resources::State<" = true) :
    (processResource
        (.registered name (.tupleStructInfo none none tp)
          (.rTupleStruct
            [.rEnum etp none (some key) VariantType.unit vname []])) t =
      .ok (Table.insert t key (.str vname), [])) ∧
    (∀ g, Table.get t g = none →
      processResource
        (.registered name (.tupleStructInfo none none tp)
          (.rTupleStruct
            [.rEnum etp (some g) (some key) VariantType.unit vname []])) t =
      .ok (Table.insert t g (.table [(key, .str vname)]), [])) := by
  constructor
  · simp [processResource, hp, maybe_save_enum, save_enum]
  · intro g hg
    simp [processResource, hp, maybe_save_enum, save_enum, getGroupTable, hg,
      Table.insert]

/-- Witness for C8: the graphics-quality scenario — a state wrapper
holding variant `High` whose enum is tagged `Key = "graphics_quality"`,
yielding the root entry `graphics_quality = "High"`. -/
theorem C8_state_wrapper_witness :
    processResource
        (.registered "State<Quality>"
          (.tupleStructInfo none none
            "bevy_state::state::resources::State<app::Quality>")
          (.rTupleStruct [.rEnum "app::Quality" none (some "graphics_quality")
            VariantType.unit "High" []])) [] =
      .ok ([("graphics_quality", Value.str "High")], []) := by
  have h := (C8_state_wrapper "State<Quality>"
    "bevy_state::state::resources::State<app::Quality>" "app::Quality"
    "High" "graphics_quality" [] (by decide)).1
  simpa [Table.insert] using h

/-- C9 counterexample: a top-level resource whose type is a unit-variant
enum tagged `Key = "graphics_quality"` stores nothing at all — the walk
only logs "Enums not supported yet" and leaves the table empty, refuting
the claimed variant-name entry under the key. -/
theorem C9_counterexample :
    processResource
        (.registered "quality" (.enumInfo none (some "graphics_quality"))
          (.rEnum "app::Quality" none (some "graphics_quality")
            VariantType.unit "High" [])) [] =
      .ok ([], ["Preferences: Enums not supported yet: " ++ "quality"]) := by
  simp [processResource]

/-- C9 amended: a top-level enum resource carrying a `Group` or `Key`
attribute is not persisted: the walk logs an "Enums not supported yet"
diagnostic naming the resource and leaves the table unchanged; enum
values reach the document only through the `State<` wrapper path. -/
theorem C9_amended_enum_resource_skipped (name : String)
    (g k : Option String) (value : RValue) (t : Table)
    (h : g.isSome = true ∨ k.isSome = true) :
    processResource (.registered name (.enumInfo g k) value) t =
      .ok (t, ["Preferences: Enums not supported yet: " ++ name]) := by
  rcases h with h | h
  · simp [processResource, h]
  · by_cases hg : g.isSome <;> simp [processResource, hg, h]

/-- Witness for the amended C9 at a concrete enum resource with a `Key`
attribute. -/
theorem C9_amended_enum_resource_skipped_witness :
    processResource
        (.registered "quality2" (.enumInfo none (some "gq"))
          (.rEnum "app::Quality" none (some "gq") VariantType.unit "Low" []))
        [] =
      .ok ([], ["Preferences: Enums not supported yet: " ++ "quality2"]) :=
  C9_amended_enum_resource_skipped "quality2" none (some "gq") _ [] (Or.inr rfl)

end BevyBasicPrefs
